import Mathlib

/-!
Verification development for `immich_sync.py`, a one-file reconciliation
engine that replaces remote media assets by content hash.

The Python source is shallowly embedded:

* pure string manipulation (`Path.stem`, `Path.suffix`, `str.lower`,
  `str.endswith`) is translated directly;
* `index_asset_groups` is modelled over an explicit list of
  `(directory, filename)` pairs standing for the `os.walk` enumeration;
* the network layer is modelled by an `Env` record of response oracles,
  and every remote call performed by the orchestrator is recorded as an
  explicit `Eff` value so that frame / dry-run properties are statements
  about the produced effect trace;
* the duplicate-check pre-pass, whose HTTP errors propagate as Python
  exceptions, is modelled in the `Except` monad.

Machine integers do not occur (indices and counters are small `Nat`s in
the source as well), and all definitions are executable.
-/

set_option autoImplicit false

namespace ImmichSync

/-! ## String helpers mirroring Python `str` / `pathlib.Path` methods -/

/-- Python `str.lower` restricted to the ASCII range, which is what the
filenames in play use (`Char.toLower` lowercases exactly ASCII letters). -/
def lowerStr (s : String) : String :=
  String.mk (s.toList.map Char.toLower)

/-- Index of the last `'.'` in a character list, if any (Python `str.rfind`). -/
def rfindDot (cs : List Char) : Option Nat :=
  (List.range cs.length).reverse.find? (fun i => cs.get? i == some '.')

/-- Python `PurePath.suffix`: the final component's extension including the
dot, and empty unless the last dot is strictly inside the name. -/
def pySuffix (name : String) : String :=
  let cs := name.toList
  match rfindDot cs with
  | some i => if 0 < i && i + 1 < cs.length then String.mk (cs.drop i) else ""
  | none => ""

/-- Python `PurePath.stem`: the name with `pySuffix` removed. -/
def pyStem (name : String) : String :=
  let cs := name.toList
  match rfindDot cs with
  | some i => if 0 < i && i + 1 < cs.length then String.mk (cs.take i) else name
  | none => name

/-- Python `PurePath.name` for a POSIX-style path string: the part after the
last slash. -/
def pyName (p : String) : String :=
  String.mk ((p.toList.reverse.takeWhile (fun c => c ≠ '/')).reverse)

/-- Python `str.endswith`, written over character lists so that it reduces
inside the kernel. -/
def endsWithStr (s suffix : String) : Bool :=
  suffix.toList.isSuffixOf s.toList

/-- Python slicing `s[:-n]` for `0 < n ≤ len s` (drop the last `n`
characters), written over character lists. -/
def dropRightStr (s : String) (n : Nat) : String :=
  String.mk (s.toList.take (s.toList.length - n))

/-! ## Group Indexer (`index_asset_groups`, source lines 253-281) -/

/-- `PHOTO_EXT` from the source. -/
def PHOTO_EXT : List String :=
  [".heic", ".jpg", ".jpeg", ".png", ".dng", ".raf", ".cr2", ".arw"]

/-- `VIDEO_EXT` from the source. -/
def VIDEO_EXT : List String :=
  [".mov", ".mp4", ".m4v"]

/-- One file produced by the `os.walk` enumeration: its directory path and
its plain file name. -/
structure FileEntry where
  dir : String
  name : String
deriving DecidableEq

/-- The per-group record built by `index_asset_groups`: the first-seen base
stem, the directory, and the four file slots (absent slot = `none`). -/
structure GroupRec where
  base : String
  dir : String
  original_photo : Option String := none
  edited_photo : Option String := none
  original_video : Option String := none
  edited_video : Option String := none
deriving DecidableEq

/-- Slot assignment `rec[field] = p` guarded by `if field not in rec`
(first file wins, later files for the same slot are ignored). -/
def setSlot (r : GroupRec) (isPhoto isEdited : Bool) (p : String) : GroupRec :=
  if isPhoto then
    if isEdited then
      if r.edited_photo.isNone then { r with edited_photo := some p } else r
    else
      if r.original_photo.isNone then { r with original_photo := some p } else r
  else
    if isEdited then
      if r.edited_video.isNone then { r with edited_video := some p } else r
    else
      if r.original_video.isNone then { r with original_video := some p } else r

/-- `groups.setdefault(key, {...})` followed by the slot assignment, on an
insertion-ordered association list (Python dicts preserve insertion order). -/
def updateGroups (key : String × String) (base dir : String)
    (isPhoto isEdited : Bool) (p : String) :
    List ((String × String) × GroupRec) → List ((String × String) × GroupRec)
  | [] => [(key, setSlot { base := base, dir := dir } isPhoto isEdited p)]
  | (k, r) :: rest =>
    if k = key then (k, setSlot r isPhoto isEdited p) :: rest
    else (k, r) :: updateGroups key base dir isPhoto isEdited p rest

/-- Processing of one walked file inside `index_asset_groups`. -/
def insertFile (gs : List ((String × String) × GroupRec)) (e : FileEntry) :
    List ((String × String) × GroupRec) :=
  let ext := lowerStr (pySuffix e.name)
  if !(PHOTO_EXT.contains ext) && !(VIDEO_EXT.contains ext) then gs
  else
    let edited_suffix := "_edited"
    let stem := pyStem e.name
    let is_edited := endsWithStr (lowerStr stem) edited_suffix
    let base := if is_edited then dropRightStr stem edited_suffix.length else stem
    let key := (e.dir, lowerStr base)
    let isPhoto := PHOTO_EXT.contains ext
    let p := e.dir ++ "/" ++ e.name
    updateGroups key base e.dir isPhoto is_edited p gs

/-- `index_asset_groups`: fold the walked files into the keyed map and
return the records in insertion order (`list(groups.values())`). -/
def index_asset_groups (files : List FileEntry) : List GroupRec :=
  (files.foldl insertFile []).map Prod.snd

/-! ## Remote duplicate-check results -/

/-- One entry of the `results` array of `POST /api/assets/bulk-upload-check`
(the `id` echoes the client-chosen key, here the local path string). -/
structure CheckRes where
  id : String
  action : String
  reason : Option String
  assetId : Option String
deriving DecidableEq

/-! ## Pre-check phase (`bulk_upload_check`, source lines 63-71, and the
chunked loop of `main`, lines 324-336)

`bulk_upload_check` performs `r.raise_for_status()` with **no** enclosing
`try`, so an HTTP failure propagates as an exception; this is modelled in
the `Except` monad, with the remote response abstracted as a `post`
oracle. -/

/-- `API_CHUNK` from the source. -/
def API_CHUNK : Nat := 600

/-- `bulk_upload_check`: empty input short-circuits to an empty result
list; otherwise the call's outcome (results, or a raised exception) is
whatever the remote returns. -/
def bulk_upload_check (post : List (String × String) → Except String (List CheckRes))
    (items : List (String × String)) : Except String (List CheckRes) :=
  if items.isEmpty then .ok [] else post items

/-- Successive slices `l[i : i + n]` of the pre-check loop. -/
def chunksOfAux {α : Type} (n : Nat) : Nat → List α → List (List α)
  | 0, _ => []
  | _, [] => []
  | fuel + 1, l => l.take n :: chunksOfAux n fuel (l.drop n)

/-- `chunksOf n l` cuts `l` into consecutive chunks of size `n`. -/
def chunksOf {α : Type} (n : Nat) (l : List α) : List (List α) :=
  chunksOfAux n l.length l

/-- Overwrite-or-append update of the `existing_assets_map` association
list (`checksum -> assetId`). -/
def assocSetO (m : List (String × Option String)) (k : String) (v : Option String) :
    List (String × Option String) :=
  if m.any (fun p => p.1 == k) then
    m.map (fun p => if p.1 == k then (k, v) else p)
  else m ++ [(k, v)]

/-- Folding one chunk's results into `existing_assets_map`: only
`action == "reject"` with `reason == "duplicate"` entries whose path maps
back to a (truthy) checksum are recorded. -/
def collectChunk (pathChecksum : String → Option String)
    (acc : List (String × Option String)) (results : List CheckRes) :
    List (String × Option String) :=
  results.foldl
    (fun m res =>
      if res.action == "reject" && res.reason == some "duplicate" then
        match pathChecksum res.id with
        | some csum => if csum.isEmpty then m else assocSetO m csum res.assetId
        | none => m
      else m)
    acc

/-- The chunked pre-check loop of `main`: each chunk is checked in turn and
its duplicates merged into the accumulator; an exception raised by
`bulk_upload_check` unwinds the whole loop (nothing is returned). -/
def precheckChunks (post : List (String × String) → Except String (List CheckRes))
    (pathChecksum : String → Option String) :
    List (List (String × String)) → List (String × Option String) →
    Except String (List (String × Option String))
  | [], acc => .ok acc
  | c :: cs, acc =>
    match bulk_upload_check post c with
    | .error e => .error e
    | .ok results => precheckChunks post pathChecksum cs (collectChunk pathChecksum acc results)

/-- The whole pre-check phase over the run's `(path, checksum)` list. -/
def precheck (post : List (String × String) → Except String (List CheckRes))
    (pathChecksum : String → Option String)
    (files : List (String × String)) : Except String (List (String × Option String)) :=
  precheckChunks post pathChecksum (chunksOf API_CHUNK files) []

/-! ## Replacement Orchestrator (the per-group loop of `main`)

Every remote interaction the loop performs is recorded as an `Eff` in
order; `DRY_RUN`-suppressed mutations are recorded as their `dry…`
variants (the logged simulations), real HTTP mutations as `real…`. The
remote store's responses are abstracted into an `Env` of determinate
oracles keyed by the request's content (and the attempt number for the
polling loops). -/

/-- The fields of a remote asset the orchestrator reads
(`GET /api/assets/{id}` and the name search). -/
structure Asset where
  id : String
  isFavorite : Bool
  stackParentId : Option String
deriving DecidableEq

/-- One observable interaction of the per-group loop. -/
inductive Eff where
  | realDelete (ids : List String)
  | dryDelete (ids : List String)
  | realEmptyTrash
  | dryEmptyTrash
  | bulkCheck (items : List (String × String))
  | getAsset (id : String)
  | realStack (assetIds : List String)
  | dryStack (assetIds : List String)
  | realAlbumAdd (album : String) (ids : List String)
  | dryAlbumAdd (album : String) (ids : List String)
  | realFavorite (id : String) (value : Bool)
  | dryFavorite (id : String) (value : Bool)
  | uploadCall (files : List String) (dryFlag : Bool)
  | checkpointWrite (value : Nat)
deriving DecidableEq

/-- Response oracles and configuration for one run. `verify` gives the
results of the duplicate re-check for a given request on a given polling
attempt; `findAttempt` gives the exact-filename search outcome on a given
`wait_for_asset` attempt; `uploadExit` the `immich upload` exit code. -/
structure Env where
  dryRun : Bool
  sha1 : String → String
  existing : String → Option String
  getAsset : String → Option Asset
  albumIndex : String → List String
  verify : List (String × String) → Nat → List CheckRes
  uploadExit : List String → Bool → Int
  findAttempt : String → Nat → Option Asset

/-- `asset_delete_many` (source lines 74-84): no-op on an empty id list,
a logged simulation under `DRY_RUN`, otherwise the real bulk delete. -/
def asset_delete_many (dry : Bool) (ids : List String) : List Eff :=
  if ids.isEmpty then []
  else if dry then [.dryDelete ids] else [.realDelete ids]

/-- `empty_trash` (source lines 87-94). -/
def empty_trash (dry : Bool) : List Eff :=
  if dry then [.dryEmptyTrash] else [.realEmptyTrash]

/-- `stack_assets` (source lines 189-205): guarded on a truthy parent and a
non-empty child list; the parent heads the posted asset-id list. -/
def stack_assets (dry : Bool) (parent : String) (children : List String) : List Eff :=
  if parent.isEmpty || children.isEmpty then []
  else if dry then [.dryStack (parent :: children)] else [.realStack (parent :: children)]

/-- `add_to_albums` (source lines 208-227): one PUT (or simulation) per
album id. -/
def add_to_albums (dry : Bool) (albums : List String) (ids : List String) : List Eff :=
  if albums.isEmpty || ids.isEmpty then []
  else albums.map (fun a => if dry then .dryAlbumAdd a ids else .realAlbumAdd a ids)

/-- `set_favorite` (source lines 230-240). -/
def set_favorite (dry : Bool) (id : String) (v : Bool) : List Eff :=
  if id.isEmpty then []
  else if dry then [.dryFavorite id v] else [.realFavorite id v]

/-- `SEARCH_RETRIES` from the source. -/
def SEARCH_RETRIES : Nat := 12

/-- The polling loop of `wait_for_asset` (source lines 243-250), with the
attempt counter `k` made explicit and the remaining budget as fuel. -/
def waitFrom (find : Nat → Option Asset) : Nat → Nat → Option Asset
  | _, 0 => none
  | k, fuel + 1 =>
    match find k with
    | some a => some a
    | none => waitFrom find (k + 1) fuel

/-- `wait_for_asset`: up to `SEARCH_RETRIES` search attempts. -/
def wait_for_asset (find : Nat → Option Asset) : Option Asset :=
  waitFrom find 0 SEARCH_RETRIES

/-- `files_to_upload` assembly (source lines 347-355): slots in the fixed
priority order edited photo, original photo, edited video, original
video. -/
def files_to_upload (g : GroupRec) : List String :=
  (g.edited_photo.toList) ++ (g.original_photo.toList) ++
  (g.edited_video.toList) ++ (g.original_video.toList)

/-- The snapshot-phase state (source lines 361-384): collected old ids,
the `old_asset_id_by_file` map, the captured album list and favorite-id
set of `saved_state`, and the effect trace so far. -/
structure SnapState where
  ids : List String
  oldByFile : List (String × String)
  albums : List String
  favs : List String
  effs : List Eff
deriving DecidableEq

/-- Overwrite-or-append update of `old_asset_id_by_file`. -/
def assocSet (m : List (String × String)) (k v : String) : List (String × String) :=
  if m.any (fun p => p.1 == k) then
    m.map (fun p => if p.1 == k then (k, v) else p)
  else m ++ [(k, v)]

/-- First-binding lookup in an association list (Python `dict.get`). -/
def assocFind (m : List (String × String)) (k : String) : Option String :=
  (m.find? (fun p => p.1 == k)).map Prod.snd

/-- Python `set.add`: insert if absent (insertion-ordered model of a set). -/
def insertNew (l : List String) (x : String) : List String :=
  if l.contains x then l else l ++ [x]

/-- Deterministic model of iterating Python `list(set(l))`: first
occurrences in order. -/
def dedup (l : List String) : List String :=
  l.foldl insertNew []

/-- One iteration of the snapshot loop (source lines 365-384): resolve the
file's checksum against the pre-check map; on a hit record the old id and,
when `not saved_state.get("albums") or asset_id not in
saved_state["favorite_ids"]`, fetch the full asset and capture favorite
and album state. -/
def snapStepF (env : Env) (st : SnapState) (f : String) : SnapState :=
  let checksum := env.sha1 f
  match env.existing checksum with
  | none => st
  | some asset_id =>
    let st := { st with
      ids := st.ids ++ [asset_id],
      oldByFile := assocSet st.oldByFile f asset_id }
    if st.albums.isEmpty || !(st.favs.contains asset_id) then
      let st := { st with effs := st.effs ++ [.getAsset asset_id] }
      match env.getAsset asset_id with
      | none => st
      | some asset_full =>
        let st :=
          if asset_full.isFavorite then { st with favs := insertNew st.favs asset_id } else st
        let albs := env.albumIndex asset_id
        if !albs.isEmpty && st.albums.isEmpty then { st with albums := albs } else st
    else st

/-- The whole snapshot phase over a group's upload list. -/
def groupSnap (env : Env) (files : List String) : SnapState :=
  files.foldl (snapStepF env) ⟨[], [], [], [], []⟩

/-- How one group's processing ended. -/
inductive StepOutcome where
  | success
  | failedVerify
  | failedUpload
  | failedNotFound
  | dryDone
  | skippedEmpty
deriving DecidableEq

/-- The verify-clear polling loop (source lines 405-416): at attempt `k`
re-check the group's hashes; all-`accept` results end the loop cleared,
otherwise retry until the fuel (10 attempts) is exhausted. Returns the
`cleared` flag and the issued duplicate-check effects. -/
def verifyFrom (env : Env) (hashes : List (String × String)) : Nat → Nat → Bool × List Eff
  | _, 0 => (false, [])
  | k, fuel + 1 =>
    let check_results := env.verify hashes k
    if check_results.all (fun res => res.action == "accept") then (true, [.bulkCheck hashes])
    else
      let rest := verifyFrom env hashes (k + 1) fuel
      (rest.1, .bulkCheck hashes :: rest.2)

/-- `album_to_new_assets.setdefault(alb, []).append(id)`. -/
def albAppend (m : List (String × List String)) (alb id : String) :
    List (String × List String) :=
  if m.any (fun p => p.1 == alb) then
    m.map (fun p => if p.1 == alb then (p.1, p.2 ++ [id]) else p)
  else m ++ [(alb, [id])]

/-- The settle / relink / restore tail of the loop (source lines 448-524),
entered only on a real (non-dry) successful upload. -/
def settlePhase (env : Env) (g : GroupRec) (snap : SnapState) : StepOutcome × List Eff :=
  let has_photos := g.edited_photo.isSome || g.original_photo.isSome
  let edited_asset_file := if has_photos then g.edited_photo else g.edited_video
  let original_asset_file := if has_photos then g.original_photo else g.original_video
  let new_edited := edited_asset_file.bind (fun f => wait_for_asset (env.findAttempt (pyName f)))
  let new_orig := original_asset_file.bind (fun f => wait_for_asset (env.findAttempt (pyName f)))
  match (match new_edited with | some a => some a | none => new_orig) with
  | none => (.failedNotFound, [])
  | some main_asset =>
    let main_id := main_asset.id
    let stackEffs :=
      match new_edited, new_orig with
      | some _, some o =>
        if o.id ≠ main_id then
          Eff.getAsset o.id ::
          (match env.getAsset o.id with
           | some refreshed =>
             if refreshed.stackParentId.isNone then stack_assets env.dryRun main_id [o.id]
             else []
           | none => [])
        else []
      | _, _ => []
    let favArm : Option Asset → Option String → List String := fun na fo =>
      match na, fo with
      | some a, some f =>
        match assocFind snap.oldByFile f with
        | some old_id => if snap.favs.contains old_id then [a.id] else []
        | none => []
      | _, _ => []
    let favorite_new_ids :=
      favArm new_edited edited_asset_file ++ favArm new_orig original_asset_file
    let favEffs :=
      (dedup favorite_new_ids).flatMap (fun fav_id => set_favorite env.dryRun fav_id true)
    let albArm : List (String × List String) → Option Asset → Option String →
        List (String × List String) := fun acc na fo =>
      match na, fo with
      | some a, some f =>
        match assocFind snap.oldByFile f with
        | some old_id =>
          if old_id.isEmpty then acc
          else (env.albumIndex old_id).foldl (fun m alb => albAppend m alb a.id) acc
        | none => acc
      | _, _ => acc
    let album_to_new_assets := albArm (albArm [] new_edited edited_asset_file)
      new_orig original_asset_file
    let albEffs := album_to_new_assets.flatMap
      (fun p => add_to_albums env.dryRun [p.1] (dedup p.2))
    (.success, stackEffs ++ favEffs ++ albEffs)

/-- Delete + purge for one group (source lines 396-398): bulk delete of the
deduplicated old ids followed by `empty_trash`. -/
def deletePhaseEffs (env : Env) (ids : List String) : List Eff :=
  asset_delete_many env.dryRun ids ++ empty_trash env.dryRun

/-- The `(path, sha1)` list re-checked during verify-clear (source line
403). -/
def groupHashes (env : Env) (g : GroupRec) : List (String × String) :=
  (files_to_upload g).map (fun f => (f, env.sha1 f))

/-- The old asset ids a group resolves to in the snapshot phase. -/
def groupResolvedIds (env : Env) (g : GroupRec) : List String :=
  (groupSnap env (files_to_upload g)).ids

/-- One full iteration of the per-group loop of `main` (source lines
342-530, checkpoint write excluded — that belongs to the run loop, which
knows the group's index). -/
def groupStep (env : Env) (g : GroupRec) : StepOutcome × List Eff :=
  let files := files_to_upload g
  if files.isEmpty then (.skippedEmpty, [])
  else
    let snap := groupSnap env files
    let unique_ids_to_delete := dedup snap.ids
    let pre :=
      if unique_ids_to_delete.isEmpty then (snap.effs, true)
      else
        let v := verifyFrom env (groupHashes env g) 0 10
        (snap.effs ++ deletePhaseEffs env unique_ids_to_delete ++ v.2, v.1)
    if !pre.2 then (.failedVerify, pre.1)
    else
      let effsU := pre.1 ++ [.uploadCall files env.dryRun]
      if env.uploadExit files env.dryRun ≠ 0 then (.failedUpload, effsU)
      else if env.dryRun then (.dryDone, effsU)
      else
        let s := settlePhase env g snap
        (s.1, effsU ++ s.2)

/-- Run-level counters: the persisted checkpoint mark and the failure
count. -/
structure RunState where
  checkpoint : Nat
  failures : Nat
deriving DecidableEq

/-- Whether an outcome takes one of the three group-fatal `continue`
paths (`failures += 1`). -/
def isFatal : StepOutcome → Bool
  | .failedVerify => true
  | .failedUpload => true
  | .failedNotFound => true
  | _ => false

/-- Bookkeeping after one group at index `i`: fatal outcomes bump the
failure counter; a full success persists `i + 1` as the checkpoint mark
unless `DRY_RUN` is set (source lines 526-530); the dry-run and
empty-group `continue`s change nothing. -/
def applyOutcome (dry : Bool) (i : Nat) (st : RunState) (out : StepOutcome)
    (es : List Eff) : RunState × List Eff :=
  match out with
  | .failedVerify => ({ st with failures := st.failures + 1 }, es)
  | .failedUpload => ({ st with failures := st.failures + 1 }, es)
  | .failedNotFound => ({ st with failures := st.failures + 1 }, es)
  | .success =>
    if dry then (st, es)
    else ({ st with checkpoint := i + 1 }, es ++ [.checkpointWrite (i + 1)])
  | .dryDone => (st, es)
  | .skippedEmpty => (st, es)

/-- The resumable group loop (source lines 342-530): groups with index
below the resume mark are skipped (`if i < resume_index: continue`), the
rest are processed in order. Returns the final run state and the
concatenated effect trace. -/
def runFrom (env : Env) (resume : Nat) : Nat → List GroupRec → RunState → RunState × List Eff
  | _, [], st => (st, [])
  | i, g :: rest, st =>
    if i < resume then runFrom env resume (i + 1) rest st
    else
      let step := groupStep env g
      let acc := applyOutcome env.dryRun i st step.1 step.2
      let tail := runFrom env resume (i + 1) rest acc.1
      (tail.1, acc.2 ++ tail.2)

/-- `main` (source lines 285-535): a failed ping returns before any group
is touched; an empty group list also returns early; otherwise the group
loop runs from index 0 with the loaded resume mark. -/
def mainModel (env : Env) (pingOk : Bool) (groups : List GroupRec) (resume : Nat) :
    RunState × List Eff :=
  if !pingOk then (⟨resume, 0⟩, [])
  else if groups.isEmpty then (⟨resume, 0⟩, [])
  else runFrom env resume 0 groups ⟨resume, 0⟩

/-- The `__main__` guard (source lines 538-542) plus `main`: exit code 2
when `IMMICH_URL` does not start with `http`, otherwise `main()` runs to
completion and the process exits 0. -/
def scriptRun (urlOk : Bool) (env : Env) (pingOk : Bool) (groups : List GroupRec)
    (resume : Nat) : Nat × RunState × List Eff :=
  if !urlOk then (2, ⟨resume, 0⟩, [])
  else
    let r := mainModel env pingOk groups resume
    (0, r.1, r.2)

/-! ## Effect classification predicates -/

/-- Real (non-simulated) mutating calls against the remote store. -/
def isRealMutation : Eff → Bool
  | .realDelete _ => true
  | .realEmptyTrash => true
  | .realStack _ => true
  | .realAlbumAdd _ _ => true
  | .realFavorite _ _ => true
  | _ => false

/-- The ingestion-command invocation. -/
def isUpload : Eff → Bool
  | .uploadCall _ _ => true
  | _ => false

/-- A duplicate-check call. -/
def isBulkCheck : Eff → Bool
  | .bulkCheck _ => true
  | _ => false

/-- Effects admissible under `DRY_RUN`: no real remote mutation, no
checkpoint write, and any ingestion invocation carries the `--dry-run`
flag. -/
def dryOk : Eff → Bool
  | .realDelete _ => false
  | .realEmptyTrash => false
  | .realStack _ => false
  | .realAlbumAdd _ _ => false
  | .realFavorite _ _ => false
  | .checkpointWrite _ => false
  | .uploadCall _ dryFlag => dryFlag
  | _ => true

/-- A group with at least one non-empty file slot. -/
def hasSlot (g : GroupRec) : Bool :=
  g.original_photo.isSome || g.edited_photo.isSome ||
  g.original_video.isSome || g.edited_video.isSome

/-! ## Concrete instances used to exercise the model -/

/-- A group holding a single original photo. -/
def g1 : GroupRec :=
  { base := "a", dir := "d", original_photo := some "d/a.jpg" }

/-- A group holding an original and an edited photo. -/
def g2 : GroupRec :=
  { base := "a", dir := "d",
    original_photo := some "d/a.jpg", edited_photo := some "d/a_edited.jpg" }

/-- A remote whose duplicate index keeps rejecting `d/a.jpg`'s checksum. -/
def envStuck : Env :=
  { dryRun := false
    sha1 := fun p => p
    existing := fun c => if c = "d/a.jpg" then some "OLD1" else none
    getAsset := fun i => some ⟨i, false, none⟩
    albumIndex := fun _ => []
    verify := fun _ _ => [⟨"d/a.jpg", "reject", some "duplicate", some "OLD1"⟩]
    uploadExit := fun _ _ => 0
    findAttempt := fun _ _ => none }

/-- `envStuck` with `DRY_RUN` enabled. -/
def envStuckDry : Env := { envStuck with dryRun := true }

/-- A remote whose duplicate re-check returns an empty result list. -/
def envEmptyCheck : Env := { envStuck with verify := fun _ _ => [] }

/-- A remote with nothing to replace and an immediately indexed upload. -/
def envOk : Env :=
  { envStuck with
    existing := fun _ => none
    findAttempt := fun _ _ => some ⟨"NEW1", false, none⟩ }

/-- A remote where the edited photo resolves to favorite asset `A` kept in
album `alb1`, and the original photo to asset `B`. -/
def envSnap : Env :=
  { envStuck with
    existing := fun c =>
      if c = "d/a_edited.jpg" then some "A"
      else if c = "d/a.jpg" then some "B" else none
    getAsset := fun i => if i = "A" then some ⟨"A", true, none⟩ else some ⟨i, false, none⟩
    albumIndex := fun i => if i = "A" then ["alb1"] else [] }

/-! ## Helper lemmas -/

theorem isEmpty_false_of_ne_nil {α : Type} {l : List α} (h : l ≠ []) :
    l.isEmpty = false := by
  cases l with
  | nil => exact absurd rfl h
  | cons a t => rfl

theorem insertNew_ne_nil (l : List String) (x : String) : insertNew l x ≠ [] := by
  unfold insertNew
  split
  · next hc =>
    intro hnil
    subst hnil
    simp at hc
  · simp

theorem foldl_insertNew_ne_nil :
    ∀ (l acc : List String), acc ≠ [] → l.foldl insertNew acc ≠ [] := by
  intro l
  induction l with
  | nil => intro acc h; simpa using h
  | cons x t ih =>
    intro acc h
    simpa using ih (insertNew acc x) (insertNew_ne_nil acc x)

theorem dedup_ne_nil {l : List String} (h : l ≠ []) : dedup l ≠ [] := by
  cases l with
  | nil => exact absurd rfl h
  | cons x t =>
    have : dedup (x :: t) = t.foldl insertNew (insertNew [] x) := rfl
    rw [this]
    exact foldl_insertNew_ne_nil t (insertNew [] x) (insertNew_ne_nil [] x)

/-- The snapshot phase only ever appends full-asset fetches to the effect
trace. -/
theorem snapStepF_effs_sub (env : Env) (st : SnapState) (f : String) :
    ∀ e ∈ (snapStepF env st f).effs, e ∈ st.effs ∨ ∃ id, e = Eff.getAsset id := by
  intro e he
  unfold snapStepF at he
  dsimp only at he
  cases hex : env.existing (env.sha1 f) with
  | none => rw [hex] at he; exact Or.inl he
  | some asset_id =>
    rw [hex] at he
    dsimp only at he
    split at he
    · cases hga : env.getAsset asset_id with
      | none =>
        rw [hga] at he
        dsimp only at he
        rcases List.mem_append.mp he with h1 | h2
        · exact Or.inl h1
        · exact Or.inr ⟨asset_id, by simpa using h2⟩
      | some asset_full =>
        rw [hga] at he
        dsimp only at he
        split at he <;> split at he <;> dsimp only at he <;>
          (rcases List.mem_append.mp he with h1 | h2
           · exact Or.inl h1
           · exact Or.inr ⟨asset_id, by simpa using h2⟩)
    · exact Or.inl he

theorem snapFold_effs_sub (env : Env) :
    ∀ (files : List String) (st : SnapState),
      ∀ e ∈ (files.foldl (snapStepF env) st).effs,
        e ∈ st.effs ∨ ∃ id, e = Eff.getAsset id := by
  intro files
  induction files with
  | nil => intro st e he; exact Or.inl he
  | cons f t ih =>
    intro st e he
    have := ih (snapStepF env st f) e (by simpa using he)
    rcases this with h1 | h2
    · exact snapStepF_effs_sub env st f e h1
    · exact Or.inr h2

/-- Every snapshot-phase effect is a full-asset fetch. -/
theorem groupSnap_effs (env : Env) (files : List String) :
    ∀ e ∈ (groupSnap env files).effs, ∃ id, e = Eff.getAsset id := by
  intro e he
  rcases snapFold_effs_sub env files ⟨[], [], [], [], []⟩ e he with h1 | h2
  · simp at h1
  · exact h2

/-- Shape of the delete-phase effects. -/
theorem deletePhaseEffs_shape (env : Env) (ids : List String) :
    ∀ e ∈ deletePhaseEffs env ids,
      (∃ l, e = Eff.realDelete l) ∨ (∃ l, e = Eff.dryDelete l) ∨
      e = Eff.realEmptyTrash ∨ e = Eff.dryEmptyTrash := by
  intro e he
  unfold deletePhaseEffs asset_delete_many empty_trash at he
  rcases List.mem_append.mp he with h1 | h2
  · split at h1
    · simp at h1
    · split at h1 <;> simp at h1 <;> simp [h1]
  · split at h2 <;> simp at h2 <;> simp [h2]

/-- Under `DRY_RUN` the delete phase is exactly the two logged
simulations. -/
theorem deletePhaseEffs_dry (env : Env) (ids : List String)
    (hdry : env.dryRun = true) (hne : ids ≠ []) :
    deletePhaseEffs env ids = [Eff.dryDelete ids, Eff.dryEmptyTrash] := by
  unfold deletePhaseEffs asset_delete_many empty_trash
  rw [isEmpty_false_of_ne_nil hne, hdry]
  rfl

/-- Every verify-clear effect is the re-issued duplicate check. -/
theorem verifyFrom_effs (env : Env) (hashes : List (String × String)) :
    ∀ (fuel k : Nat), ∀ e ∈ (verifyFrom env hashes k fuel).2, e = Eff.bulkCheck hashes := by
  intro fuel
  induction fuel with
  | zero => intro k e he; simp [verifyFrom] at he
  | succ n ih =>
    intro k e he
    unfold verifyFrom at he
    dsimp only at he
    split at he
    · simpa using he
    · simp only [List.mem_cons] at he
      rcases he with h1 | h2
      · exact h1
      · exact ih (k + 1) e h2

/-- If every attempt in the budget reports a non-accept result, the loop
ends uncleared after issuing exactly `fuel` duplicate checks. -/
theorem verifyFrom_stuck (env : Env) (hashes : List (String × String)) :
    ∀ (fuel k : Nat),
      (∀ j < fuel, ((env.verify hashes (k + j)).all
        (fun res => res.action == "accept")) = false) →
      verifyFrom env hashes k fuel = (false, List.replicate fuel (Eff.bulkCheck hashes)) := by
  intro fuel
  induction fuel with
  | zero => intro k h; rfl
  | succ n ih =>
    intro k h
    unfold verifyFrom
    dsimp only
    have h0 : ((env.verify hashes k).all (fun res => res.action == "accept")) = false := by
      have := h 0 (Nat.succ_pos n)
      simpa using this
    rw [h0]
    simp only [Bool.false_eq_true, if_false]
    have hrec := ih (k + 1) (fun j hj => by
      have := h (j + 1) (Nat.succ_lt_succ hj)
      have harith : k + (j + 1) = k + 1 + j := by omega
      rwa [harith] at this)
    rw [hrec]
    rfl

/-- An immediately clearing attempt ends the loop with one duplicate
check. -/
theorem verifyFrom_clear_now (env : Env) (hashes : List (String × String))
    (k fuel : Nat)
    (h : ((env.verify hashes k).all (fun res => res.action == "accept")) = true) :
    verifyFrom env hashes k (fuel + 1) = (true, [Eff.bulkCheck hashes]) := by
  unfold verifyFrom
  dsimp only
  rw [h]
  simp

/-- The settle phase ends in `failedNotFound` or `success`, never in a
verify or upload failure. -/
theorem settlePhase_fst (env : Env) (g : GroupRec) (snap : SnapState) :
    (settlePhase env g snap).1 = .failedNotFound ∨
    (settlePhase env g snap).1 = .success := by
  unfold settlePhase
  dsimp only
  split
  · exact Or.inl rfl
  · exact Or.inr rfl

/-- With a non-empty upload list, at least one resolved old asset, and a
duplicate index that reports a non-accept result on all 10 polling
attempts, the group step ends in `failedVerify` with exactly the
snapshot, delete and ten re-check effects. -/
theorem groupStep_stuck (env : Env) (g : GroupRec)
    (hf : files_to_upload g ≠ [])
    (hids : groupResolvedIds env g ≠ [])
    (hstuck : ∀ k < 10, ((env.verify (groupHashes env g) k).all
      (fun res => res.action == "accept")) = false) :
    groupStep env g =
      (.failedVerify,
       (groupSnap env (files_to_upload g)).effs ++
         deletePhaseEffs env (dedup (groupResolvedIds env g)) ++
         List.replicate 10 (Eff.bulkCheck (groupHashes env g))) := by
  have h1 : (files_to_upload g).isEmpty = false := isEmpty_false_of_ne_nil hf
  have h2 : (dedup ((groupSnap env (files_to_upload g)).ids)).isEmpty = false :=
    isEmpty_false_of_ne_nil (dedup_ne_nil hids)
  have h3 := verifyFrom_stuck env (groupHashes env g) 10 0
    (fun j hj => by simpa using hstuck j hj)
  simp only [groupStep, h1, h2, h3, Bool.false_eq_true, if_false, Bool.not_false, if_true]
  rfl

/-- Once the verify loop reports cleared, the group step always reaches
the ingestion invocation. -/
theorem groupStep_cleared_upload (env : Env) (g : GroupRec)
    (hf : files_to_upload g ≠ [])
    (hids : groupResolvedIds env g ≠ [])
    (hclear : (verifyFrom env (groupHashes env g) 0 10).1 = true) :
    Eff.uploadCall (files_to_upload g) env.dryRun ∈ (groupStep env g).2 ∧
    (groupStep env g).1 ≠ .failedVerify := by
  have h1 : (files_to_upload g).isEmpty = false := isEmpty_false_of_ne_nil hf
  have h2 : (dedup ((groupSnap env (files_to_upload g)).ids)).isEmpty = false :=
    isEmpty_false_of_ne_nil (dedup_ne_nil hids)
  simp only [groupStep, h1, h2, hclear, Bool.false_eq_true, if_false, Bool.not_true, if_true]
  split
  · constructor
    · simp
    · simp
  · split
    · constructor
      · simp
      · simp
    · constructor
      · simp
      · rcases settlePhase_fst env g (groupSnap env (files_to_upload g)) with hs | hs <;>
          simp [hs]

/-- Under `DRY_RUN` every delete-phase effect is a logged simulation. -/
theorem deletePhaseEffs_dryOk (env : Env) (ids : List String)
    (hdry : env.dryRun = true) :
    ∀ e ∈ deletePhaseEffs env ids, dryOk e = true := by
  intro e he
  unfold deletePhaseEffs asset_delete_many empty_trash at he
  rw [hdry] at he
  rcases List.mem_append.mp he with h1 | h2
  · split at h1
    · simp at h1
    · simp at h1
      subst h1
      rfl
  · simp at h2
    subst h2
    rfl

/-- Under `DRY_RUN` every effect of one group step is admissible: no real
remote mutation, and the ingestion command is invoked with the dry-run
flag. -/
theorem groupStep_dry (env : Env) (g : GroupRec) (hdry : env.dryRun = true) :
    ∀ e ∈ (groupStep env g).2, dryOk e = true := by
  intro e he
  have hsnap : ∀ x ∈ (groupSnap env (files_to_upload g)).effs, dryOk x = true := by
    intro x hx
    rcases groupSnap_effs env (files_to_upload g) x hx with ⟨id, rfl⟩
    rfl
  have hver : ∀ x ∈ (verifyFrom env (groupHashes env g) 0 10).2, dryOk x = true := by
    intro x hx
    rw [verifyFrom_effs env (groupHashes env g) 10 0 x hx]
    rfl
  have hall : ∀ x ∈ (groupSnap env (files_to_upload g)).effs ++
      deletePhaseEffs env (dedup ((groupSnap env (files_to_upload g)).ids)) ++
      (verifyFrom env (groupHashes env g) 0 10).2, dryOk x = true := by
    intro x hx
    rcases List.mem_append.mp hx with h1 | h2
    · rcases List.mem_append.mp h1 with h3 | h4
      · exact hsnap x h3
      · exact deletePhaseEffs_dryOk env _ hdry x h4
    · exact hver x h2
  cases hfe : (files_to_upload g).isEmpty with
  | true => simp [groupStep, hfe] at he
  | false =>
    cases hu : (dedup ((groupSnap env (files_to_upload g)).ids)).isEmpty with
    | true =>
      simp only [groupStep, hdry, hfe, hu, Bool.false_eq_true, Bool.not_true,
        eq_self_iff_true, if_true, if_false] at he
      split at he <;>
        (rcases List.mem_append.mp he with h1 | h2
         · exact hsnap e h1
         · simp only [List.mem_singleton] at h2
           subst h2
           rfl)
    | false =>
      cases hcl : (verifyFrom env (groupHashes env g) 0 10).1 with
      | false =>
        simp only [groupStep, hdry, hfe, hu, hcl, Bool.false_eq_true, Bool.not_false,
          eq_self_iff_true, if_true, if_false] at he
        exact hall e he
      | true =>
        simp only [groupStep, hdry, hfe, hu, hcl, Bool.false_eq_true, Bool.not_true,
          eq_self_iff_true, if_true, if_false] at he
        split at he <;>
          (rcases List.mem_append.mp he with h1 | h2
           · exact hall e h1
           · simp only [List.mem_singleton] at h2
             subst h2
             rfl)

/-- Under `DRY_RUN` the run loop never appends a checkpoint write. -/
theorem applyOutcome_dry_snd (i : Nat) (st : RunState) (out : StepOutcome)
    (es : List Eff) : (applyOutcome true i st out es).2 = es := by
  cases out <;> rfl

/-- Under `DRY_RUN` every effect of the whole resumable loop is
admissible. -/
theorem runFrom_dry (env : Env) (m : Nat) (hdry : env.dryRun = true) :
    ∀ (gs : List GroupRec) (i : Nat) (st : RunState),
      ∀ e ∈ (runFrom env m i gs st).2, dryOk e = true := by
  intro gs
  induction gs with
  | nil => intro i st e he; simp [runFrom] at he
  | cons g rest ih =>
    intro i st e he
    unfold runFrom at he
    split at he
    · exact ih (i + 1) st e he
    · dsimp only at he
      rw [hdry] at he
      rw [applyOutcome_dry_snd] at he
      rcases List.mem_append.mp he with h1 | h2
      · exact groupStep_dry env g hdry e h1
      · exact ih (i + 1) _ e h2

/-- Setting a slot on the fresh record created by `setdefault` always
fills that slot. -/
theorem setSlot_fresh (base dir p : String) (isPhoto isEdited : Bool) :
    hasSlot (setSlot { base := base, dir := dir } isPhoto isEdited p) = true := by
  cases isPhoto <;> cases isEdited <;> rfl

/-- `setSlot` never empties a slot. -/
theorem setSlot_mono (r : GroupRec) (isPhoto isEdited : Bool) (p : String)
    (h : hasSlot r = true) : hasSlot (setSlot r isPhoto isEdited p) = true := by
  unfold setSlot
  split
  · split
    · split
      · simp [hasSlot]
      · exact h
    · split
      · simp [hasSlot]
      · exact h
  · split
    · split
      · simp [hasSlot]
      · exact h
    · split
      · simp [hasSlot]
      · exact h

/-- `updateGroups` preserves the at-least-one-slot invariant. -/
theorem updateGroups_inv (key : String × String) (base dir : String)
    (isPhoto isEdited : Bool) (p : String) :
    ∀ (gs : List ((String × String) × GroupRec)),
      (∀ q ∈ gs, hasSlot q.2 = true) →
      ∀ q ∈ updateGroups key base dir isPhoto isEdited p gs, hasSlot q.2 = true := by
  intro gs
  induction gs with
  | nil =>
    intro _ q hq
    simp only [updateGroups, List.mem_singleton] at hq
    subst hq
    exact setSlot_fresh base dir p isPhoto isEdited
  | cons kr rest ih =>
    intro hinv q hq
    unfold updateGroups at hq
    split at hq
    · rcases List.mem_cons.mp hq with h1 | h2
      · subst h1
        exact setSlot_mono kr.2 isPhoto isEdited p (hinv kr (List.mem_cons_self kr rest))
      · exact hinv q (List.mem_cons_of_mem kr h2)
    · rcases List.mem_cons.mp hq with h1 | h2
      · subst h1
        exact hinv kr (List.mem_cons_self kr rest)
      · exact ih (fun x hx => hinv x (List.mem_cons_of_mem kr hx)) q h2

/-- `insertFile` preserves the at-least-one-slot invariant. -/
theorem insertFile_inv (gs : List ((String × String) × GroupRec)) (e : FileEntry)
    (hinv : ∀ q ∈ gs, hasSlot q.2 = true) :
    ∀ q ∈ insertFile gs e, hasSlot q.2 = true := by
  intro q hq
  simp only [insertFile] at hq
  split at hq
  · exact hinv q hq
  · exact updateGroups_inv _ _ _ _ _ _ gs hinv q hq

/-- The whole indexer fold preserves the invariant. -/
theorem indexFold_inv :
    ∀ (files : List FileEntry) (gs : List ((String × String) × GroupRec)),
      (∀ q ∈ gs, hasSlot q.2 = true) →
      ∀ q ∈ files.foldl insertFile gs, hasSlot q.2 = true := by
  intro files
  induction files with
  | nil => intro gs hinv q hq; exact hinv q hq
  | cons f t ih =>
    intro gs hinv q hq
    exact ih (insertFile gs f) (insertFile_inv gs f hinv) q (by simpa using hq)

/-- Effects that are not duplicate checks are dropped by the
`isBulkCheck` filter. -/
theorem filter_bulk_nil :
    ∀ (l : List Eff), (∀ e ∈ l, isBulkCheck e = false) → l.filter isBulkCheck = [] := by
  intro l
  induction l with
  | nil => intro _; rfl
  | cons x t ih =>
    intro hl
    have hx : isBulkCheck x = false := hl x (List.mem_cons_self x t)
    simp only [List.filter_cons, hx, Bool.false_eq_true, if_false]
    exact ih (fun e he => hl e (List.mem_cons_of_mem x he))

/-- The filter keeps every replicated duplicate check. -/
theorem filter_bulk_replicate (h : List (String × String)) (n : Nat) :
    (List.replicate n (Eff.bulkCheck h)).filter isBulkCheck =
      List.replicate n (Eff.bulkCheck h) := by
  induction n with
  | zero => rfl
  | succ k ih =>
    simp only [List.replicate_succ, List.filter_cons]
    rw [ih]
    rfl

/-- All insertions of `x` into one list (structural recursion, so that
the kernel can evaluate it). -/
def insertions {α : Type} (x : α) : List α → List (List α)
  | [] => [[x]]
  | y :: t => (x :: y :: t) :: (insertions x t).map (fun l => y :: l)

/-- All permutations of a list, by repeated insertion. -/
def perms {α : Type} : List α → List (List α)
  | [] => [[]]
  | x :: t => (perms t).flatMap (insertions x)

/-- Unfolding equation of the run loop on a non-empty group list. -/
theorem runFrom_cons (env : Env) (m i : Nat) (g : GroupRec)
    (rest : List GroupRec) (st : RunState) :
    runFrom env m i (g :: rest) st =
      if i < m then runFrom env m (i + 1) rest st
      else
        ((runFrom env m (i + 1) rest
            (applyOutcome env.dryRun i st (groupStep env g).1 (groupStep env g).2).1).1,
         (applyOutcome env.dryRun i st (groupStep env g).1 (groupStep env g).2).2 ++
           (runFrom env m (i + 1) rest
             (applyOutcome env.dryRun i st (groupStep env g).1 (groupStep env g).2).1).2) := by
  rfl

/-! ## The claims -/

/-- The four-file fixture of the grouping property. -/
def fourFiles : List FileEntry :=
  [⟨"d", "a.jpg"⟩, ⟨"d", "a_edited.jpg"⟩, ⟨"d", "a.mov"⟩, ⟨"d", "a_edited.mov"⟩]

/-- The single fully-populated group the fixture must index to. -/
def fullGroup : GroupRec :=
  { base := "a", dir := "d",
    original_photo := some "d/a.jpg", edited_photo := some "d/a_edited.jpg",
    original_video := some "d/a.mov", edited_video := some "d/a_edited.mov" }

/-- The mixed-case pair of the case-insensitivity property. -/
def caseFiles : List FileEntry :=
  [⟨"d", "A.JPG"⟩, ⟨"d", "a_EDITED.jpg"⟩]

/-- Exactly one group holding `A.JPG` as original photo and
`a_EDITED.jpg` as edited photo. -/
def caseCheck (gs : List GroupRec) : Bool :=
  match gs with
  | [g] => g.original_photo == some "d/A.JPG" && g.edited_photo == some "d/a_EDITED.jpg"
  | _ => false

/-- Claim C6: a directory holding exactly `a.jpg`, `a_edited.jpg`,
`a.mov`, `a_edited.mov` indexes — in every walk order — to exactly one
group with all four slots filled; and grouping is case-insensitive on
base name and edited suffix, so `A.JPG` and `a_EDITED.jpg` (again in
either walk order) land in one common group. -/
theorem c6_grouping :
    ((perms fourFiles).all
      (fun l => decide (index_asset_groups l = [fullGroup]))) = true ∧
    ((perms caseFiles).all
      (fun l => caseCheck (index_asset_groups l))) = true := by
  constructor
  · decide
  · decide

/-- Claim C8: every group produced by the indexer has at least one
non-empty file slot, over any walked file list. -/
theorem c8_nonempty_groups (files : List FileEntry) (g : GroupRec)
    (hg : g ∈ index_asset_groups files) : hasSlot g = true := by
  rcases List.mem_map.mp hg with ⟨q, hq, rfl⟩
  exact indexFold_inv files [] (by intro x hx; simp at hx) q hq

/-- Witness for C8 on the four-file fixture. -/
theorem c8_witness :
    fullGroup ∈ index_asset_groups fourFiles ∧ hasSlot fullGroup = true :=
  ⟨by decide, c8_nonempty_groups fourFiles fullGroup (by decide)⟩

/-- Claim C1: if the verify-clear phase runs (the group resolved at least
one old asset) and the duplicate check reports a non-accept result on all
10 polling attempts, the group step ends `failedVerify`, no ingestion
command is invoked for it, and the run loop increments the failure
counter and continues with the remaining groups. -/
theorem c1_verify_exhaustion (env : Env) (g : GroupRec) (m i : Nat)
    (rest : List GroupRec) (st : RunState)
    (hf : files_to_upload g ≠ [])
    (hids : groupResolvedIds env g ≠ [])
    (hstuck : ∀ k < 10, ((env.verify (groupHashes env g) k).all
      (fun res => res.action == "accept")) = false) :
    (groupStep env g).1 = .failedVerify ∧
    (∀ e ∈ (groupStep env g).2, isUpload e = false) ∧
    (¬ i < m →
      runFrom env m i (g :: rest) st =
        ((runFrom env m (i + 1) rest ⟨st.checkpoint, st.failures + 1⟩).1,
         (groupStep env g).2 ++
           (runFrom env m (i + 1) rest ⟨st.checkpoint, st.failures + 1⟩).2)) := by
  have hstep := groupStep_stuck env g hf hids hstuck
  refine ⟨by rw [hstep], ?_, ?_⟩
  · intro e he
    rw [hstep] at he
    dsimp only at he
    rcases List.mem_append.mp he with h1 | h2
    · rcases List.mem_append.mp h1 with h3 | h4
      · rcases groupSnap_effs env (files_to_upload g) e h3 with ⟨id, rfl⟩
        rfl
      · rcases deletePhaseEffs_shape env _ e h4 with ⟨l, rfl⟩ | ⟨l, rfl⟩ | rfl | rfl <;> rfl
    · rw [List.eq_of_mem_replicate h2]
      rfl
  · intro him
    rw [runFrom_cons, if_neg him, hstep]
    simp only [applyOutcome]

/-- Witness for C1 on the stuck remote. -/
theorem c1_witness :
    (groupStep envStuck g1).1 = .failedVerify ∧
    (∀ e ∈ (groupStep envStuck g1).2, isUpload e = false) :=
  ⟨(c1_verify_exhaustion envStuck g1 0 0 [] ⟨0, 0⟩ (by decide) (by decide) (by decide)).1,
   (c1_verify_exhaustion envStuck g1 0 0 [] ⟨0, 0⟩ (by decide) (by decide) (by decide)).2.1⟩

/-- Claim C10: an empty duplicate-check result list makes the all-accept
test vacuously true, so the verify loop reports cleared on that attempt
and the group proceeds to the ingestion invocation. -/
theorem c10_empty_results (env : Env) (g : GroupRec)
    (hf : files_to_upload g ≠ [])
    (hids : groupResolvedIds env g ≠ [])
    (hempty : env.verify (groupHashes env g) 0 = []) :
    verifyFrom env (groupHashes env g) 0 10 =
      (true, [Eff.bulkCheck (groupHashes env g)]) ∧
    Eff.uploadCall (files_to_upload g) env.dryRun ∈ (groupStep env g).2 ∧
    (groupStep env g).1 ≠ .failedVerify := by
  have hacc : ((env.verify (groupHashes env g) 0).all
      (fun res => res.action == "accept")) = true := by
    rw [hempty]
    rfl
  have hv : verifyFrom env (groupHashes env g) 0 10 =
      (true, [Eff.bulkCheck (groupHashes env g)]) :=
    verifyFrom_clear_now env (groupHashes env g) 0 9 hacc
  refine ⟨hv, ?_⟩
  exact groupStep_cleared_upload env g hf hids (by rw [hv])

/-- Witness for C10 on the empty-responding remote. -/
theorem c10_witness :
    Eff.uploadCall (files_to_upload g1) envEmptyCheck.dryRun ∈
      (groupStep envEmptyCheck g1).2 ∧
    (groupStep envEmptyCheck g1).1 ≠ .failedVerify :=
  (c10_empty_results envEmptyCheck g1 (by decide) (by decide) (by decide)).2

/-- Claim C9: with `DRY_RUN` enabled, delete and empty-trash are only
logged simulations, but the verify-clear phase still issues ten real
duplicate-check calls; a group resolving to an old asset whose checksum
the index keeps rejecting is marked failed and the (simulated) ingestion
step is never reached. -/
theorem c9_dry_verify_real (env : Env) (g : GroupRec)
    (hdry : env.dryRun = true)
    (hf : files_to_upload g ≠ [])
    (hids : groupResolvedIds env g ≠ [])
    (hstuck : ∀ k < 10, ((env.verify (groupHashes env g) k).all
      (fun res => res.action == "accept")) = false) :
    (groupStep env g).1 = .failedVerify ∧
    Eff.dryDelete (dedup (groupResolvedIds env g)) ∈ (groupStep env g).2 ∧
    Eff.dryEmptyTrash ∈ (groupStep env g).2 ∧
    (∀ e ∈ (groupStep env g).2, isRealMutation e = false ∧ isUpload e = false) ∧
    ((groupStep env g).2.filter isBulkCheck).length = 10 := by
  have hstep := groupStep_stuck env g hf hids hstuck
  have hdel : deletePhaseEffs env (dedup (groupResolvedIds env g)) =
      [Eff.dryDelete (dedup (groupResolvedIds env g)), Eff.dryEmptyTrash] :=
    deletePhaseEffs_dry env _ hdry (dedup_ne_nil hids)
  refine ⟨by rw [hstep], ?_, ?_, ?_, ?_⟩
  · rw [hstep]
    dsimp only
    rw [hdel]
    simp
  · rw [hstep]
    dsimp only
    rw [hdel]
    simp
  · intro e he
    rw [hstep] at he
    dsimp only at he
    rw [hdel] at he
    rcases List.mem_append.mp he with h1 | h2
    · rcases List.mem_append.mp h1 with h3 | h4
      · rcases groupSnap_effs env (files_to_upload g) e h3 with ⟨id, rfl⟩
        exact ⟨rfl, rfl⟩
      · rcases List.mem_cons.mp h4 with h5 | h6
        · subst h5
          exact ⟨rfl, rfl⟩
        · rcases List.mem_singleton.mp h6 with rfl
          exact ⟨rfl, rfl⟩
    · rw [List.eq_of_mem_replicate h2]
      exact ⟨rfl, rfl⟩
  · rw [hstep]
    dsimp only
    rw [hdel]
    rw [List.filter_append, List.filter_append]
    rw [filter_bulk_nil _ (fun e he => by
      rcases groupSnap_effs env (files_to_upload g) e he with ⟨id, rfl⟩
      rfl)]
    rw [filter_bulk_replicate]
    simp [isBulkCheck]

/-- Witness for C9 on the stuck remote with `DRY_RUN`. -/
theorem c9_witness :
    (groupStep envStuckDry g1).1 = .failedVerify ∧
    Eff.dryDelete (dedup (groupResolvedIds envStuckDry g1)) ∈ (groupStep envStuckDry g1).2 ∧
    Eff.dryEmptyTrash ∈ (groupStep envStuckDry g1).2 ∧
    ((groupStep envStuckDry g1).2.filter isBulkCheck).length = 10 := by
  have h := c9_dry_verify_real envStuckDry g1 rfl (by decide) (by decide) (by decide)
  exact ⟨h.1, h.2.1, h.2.2.1, h.2.2.2.2⟩

/-- Claim C5: with `DRY_RUN` enabled no real delete, favorite, stack,
album-add or checkpoint write is ever issued over a whole run, and every
ingestion invocation carries the dry-run flag (the dry `Eff` variants are
the logged simulations). -/
theorem c5_dry_run (env : Env) (pingOk : Bool) (groups : List GroupRec)
    (resume : Nat) (hdry : env.dryRun = true) :
    ∀ e ∈ (mainModel env pingOk groups resume).2, dryOk e = true := by
  intro e he
  unfold mainModel at he
  split at he
  · simp at he
  · split at he
    · simp at he
    · exact runFrom_dry env resume hdry groups 0 ⟨resume, 0⟩ e he

/-- Witness for C5: a dry run over the stuck remote still produces a
(simulated) delete effect, and it is dry-admissible. -/
theorem c5_witness :
    Eff.dryDelete ["OLD1"] ∈ (mainModel envStuckDry true [g1] 0).2 ∧
    dryOk (Eff.dryDelete ["OLD1"]) = true :=
  ⟨by decide, c5_dry_run envStuckDry true [g1] 0 rfl (Eff.dryDelete ["OLD1"]) (by decide)⟩

/-- Claim C2: a group at index `i` that completes all steps outside
dry-run persists `i + 1` as the checkpoint; a group-fatal exit leaves the
checkpoint untouched (and counts a failure) while the loop continues; a
run resumed with mark `m` skips exactly the groups with index below
`m`. -/
theorem c2_checkpoint (env : Env) (m i : Nat) (g : GroupRec)
    (rest : List GroupRec) (st : RunState) :
    (∀ es, ¬ i < m → env.dryRun = false → groupStep env g = (.success, es) →
      runFrom env m i (g :: rest) st =
        ((runFrom env m (i + 1) rest ⟨i + 1, st.failures⟩).1,
         (es ++ [Eff.checkpointWrite (i + 1)]) ++
           (runFrom env m (i + 1) rest ⟨i + 1, st.failures⟩).2)) ∧
    (∀ out es, ¬ i < m → groupStep env g = (out, es) → isFatal out = true →
      runFrom env m i (g :: rest) st =
        ((runFrom env m (i + 1) rest ⟨st.checkpoint, st.failures + 1⟩).1,
         es ++ (runFrom env m (i + 1) rest ⟨st.checkpoint, st.failures + 1⟩).2)) ∧
    (i < m → runFrom env m i (g :: rest) st = runFrom env m (i + 1) rest st) := by
  refine ⟨?_, ?_, ?_⟩
  · intro es him hdry hstep
    rw [runFrom_cons, if_neg him, hstep]
    simp only [applyOutcome, hdry, Bool.false_eq_true, if_false]
  · intro out es him hstep hfat
    rw [runFrom_cons, if_neg him, hstep]
    cases out
    case success => simp [isFatal] at hfat
    case dryDone => simp [isFatal] at hfat
    case skippedEmpty => simp [isFatal] at hfat
    all_goals simp only [applyOutcome]
  · intro him
    rw [runFrom_cons, if_pos him]

/-- Witness for C2: on the clean remote the single group succeeds, the
checkpoint advances to 1 and the write effect is recorded; a resume mark
above the index skips the group. -/
theorem c2_witness :
    (runFrom envOk 0 0 [g1] ⟨0, 0⟩ =
      ((runFrom envOk 0 1 [] ⟨1, 0⟩).1,
       ([Eff.uploadCall ["d/a.jpg"] false] ++ [Eff.checkpointWrite 1]) ++
         (runFrom envOk 0 1 [] ⟨1, 0⟩).2)) ∧
    (runFrom envOk 1 0 [g1] ⟨0, 0⟩ = runFrom envOk 1 1 [] ⟨0, 0⟩) :=
  ⟨(c2_checkpoint envOk 0 0 g1 [] ⟨0, 0⟩).1 [Eff.uploadCall ["d/a.jpg"] false]
      (by decide) rfl (by decide),
   (c2_checkpoint envOk 1 0 g1 [] ⟨0, 0⟩).2.2 (by decide)⟩

/-- Counterexample to claim C3 as stated: processing the edited photo
first puts a non-empty album list (and a favorite id) into the group's
snapshot, yet the per-file fetch for the next resolved old asset `B` is
still issued. -/
theorem c3_counterexample :
    (groupSnap envSnap ["d/a_edited.jpg"]).albums ≠ [] ∧
    (groupSnap envSnap ["d/a_edited.jpg"]).favs ≠ [] ∧
    Eff.getAsset "B" ∈ (groupSnap envSnap (files_to_upload g2)).effs := by
  refine ⟨by decide, by decide, by decide⟩

/-- Claim C3 (amended): during the snapshot phase the per-file `get_asset`
fetch for a resolved old asset is skipped exactly when the snapshot's
album list is already non-empty AND that asset's id is already in the
captured favorite set; a non-empty album list alone, or a favorite
captured from a different asset, does not suppress the fetch. -/
theorem c3_fetch_condition (env : Env) (st : SnapState) (f asset_id : String)
    (hex : env.existing (env.sha1 f) = some asset_id) :
    (snapStepF env st f).effs =
      st.effs ++
        (if st.albums.isEmpty || !(st.favs.contains asset_id)
         then [Eff.getAsset asset_id] else []) := by
  unfold snapStepF
  dsimp only
  rw [hex]
  dsimp only
  by_cases hc : (st.albums.isEmpty || !(st.favs.contains asset_id)) = true
  · rw [if_pos hc, if_pos hc]
    cases hga : env.getAsset asset_id with
    | none => rfl
    | some asset_full =>
      dsimp only
      split <;> split <;> rfl
  · rw [if_neg hc, if_neg hc]
    simp

/-- Witness for the amended C3 on the two-asset remote. -/
theorem c3_witness :
    (snapStepF envSnap (groupSnap envSnap ["d/a_edited.jpg"]) "d/a.jpg").effs =
      (groupSnap envSnap ["d/a_edited.jpg"]).effs ++
        (if (groupSnap envSnap ["d/a_edited.jpg"]).albums.isEmpty ||
            !((groupSnap envSnap ["d/a_edited.jpg"]).favs.contains "B")
         then [Eff.getAsset "B"] else []) :=
  c3_fetch_condition envSnap (groupSnap envSnap ["d/a_edited.jpg"]) "d/a.jpg" "B" (by decide)

/-- A remote that refuses every duplicate-check POST. -/
def postFail : List (String × String) → Except String (List CheckRes) :=
  fun _ => .error "connection reset"

/-- A remote that accepts single-pair chunks and fails larger ones. -/
def postFirstOk : List (String × String) → Except String (List CheckRes) :=
  fun items => if items.length = 1 then .ok [] else .error "boom"

/-- Counterexample to claim C4 as stated: an HTTP failure of a
duplicate-check chunk is not converted to a structured result inside
`bulk_upload_check` — the pre-check loop of the orchestrator aborts with
the raw error and returns no gathered entries. -/
theorem c4_counterexample :
    precheck postFail (fun _ => none) [("p", "c")] = .error "connection reset" := by
  rfl

/-- Claim C4 (amended): `bulk_upload_check` has no exception handler, so
when every chunk before position `k` succeeds and the chunk at `k` fails,
the whole pre-check loop evaluates to that raised error — the
`(clientKey, result)` entries gathered from the earlier chunks are not
returned to the orchestrator. -/
theorem c4_chunk_failure (post : List (String × String) → Except String (List CheckRes))
    (pc : String → Option String) (e : String) :
    ∀ (cs1 : List (List (String × String))) (c : List (String × String))
      (cs2 : List (List (String × String))) (acc : List (String × Option String)),
      (∀ ch ∈ cs1, ∃ rs, bulk_upload_check post ch = .ok rs) →
      bulk_upload_check post c = .error e →
      precheckChunks post pc (cs1 ++ c :: cs2) acc = .error e := by
  intro cs1
  induction cs1 with
  | nil =>
    intro c cs2 acc _ hc
    rw [List.nil_append]
    unfold precheckChunks
    rw [hc]
  | cons ch t ih =>
    intro c cs2 acc hok hc
    rcases hok ch (List.mem_cons_self ch t) with ⟨rs, hrs⟩
    rw [List.cons_append]
    unfold precheckChunks
    rw [hrs]
    exact ih c cs2 (collectChunk pc acc rs)
      (fun x hx => hok x (List.mem_cons_of_mem ch hx)) hc

/-- Witness for the amended C4: first chunk accepted, second chunk
failing, error surfaces from the loop. -/
theorem c4_witness :
    precheckChunks postFirstOk (fun _ => none)
      ([[("p1", "c1")]] ++ [("p2", "c2"), ("p3", "c3")] :: []) [] = .error "boom" :=
  c4_chunk_failure postFirstOk (fun _ => none) "boom"
    [[("p1", "c1")]] [("p2", "c2"), ("p3", "c3")] [] []
    (fun ch hch => by
      simp only [List.mem_singleton] at hch
      subst hch
      exact ⟨[], rfl⟩)
    rfl

/-- Counterexample to claim C7 as stated: a run whose reachability ping
fails returns from `main` without touching any group, and the process
still exits with code 0 — the exit code does not indicate the failure to
start. -/
theorem c7_counterexample :
    (scriptRun true envStuck false [g1] 0).1 = 0 ∧
    (scriptRun true envStuck false [g1] 0).2.2 = [] := by
  exact ⟨rfl, rfl⟩

/-- Claim C7 (amended): the exit code depends only on the `IMMICH_URL`
sanity check (2 when it does not start with `http`, otherwise 0); a
failed ping aborts the run before any group is processed but still exits
0, and counted per-group failures never change the exit code. -/
theorem c7_exit_code (urlOk : Bool) (env : Env) (pingOk : Bool)
    (groups : List GroupRec) (resume : Nat) :
    ((scriptRun urlOk env pingOk groups resume).1 = if urlOk then 0 else 2) ∧
    (pingOk = false →
      (scriptRun urlOk env pingOk groups resume).2.2 = [] ∧
      (scriptRun urlOk env pingOk groups resume).2.1.failures = 0) := by
  constructor
  · cases urlOk <;> simp [scriptRun]
  · intro hping
    subst hping
    cases urlOk <;> simp [scriptRun, mainModel]

/-- Witness for the amended C7. -/
theorem c7_witness :
    ((scriptRun true envStuck false [g1] 3).1 = if true then 0 else 2) ∧
    (scriptRun true envStuck false [g1] 3).2.2 = [] ∧
    (scriptRun true envStuck false [g1] 3).2.1.failures = 0 := by
  have h := c7_exit_code true envStuck false [g1] 3
  exact ⟨h.1, (h.2 rfl).1, (h.2 rfl).2⟩

end ImmichSync
